import Mathlib

/-!
Panorama stitching driver (`main.cpp`).

A shallow embedding of the driver program: the command-line scan
`parseCmdArgs`, the image-reading loop, the median focal length computation
and the straight-line pipeline of `main`.

* `argv` is the whole argument vector (`argv[0]` is the program name) and
  `argc` is its length.
* The globals `img_names` and `result_name` are threaded as explicit state.
* Everything the program does that can be observed (text sent to `cout`,
  `imread`, the stage calls, `imwrite`) is appended to a trace.
* The stages `findFeatures`, `registerImages` and `composePano` are declared in
  `stitching.hpp`; the driver only calls them, so they are parameters (`Env`).
* Focal lengths are rationals: the arithmetic is exact, the final rounding to
  single precision is not represented.
* A read outside a container is undefined behaviour in C++; it is the
  outcome `Outcome.fault`.
* Wall-clock timings (`getTickCount`) and the CUDA set-up calls do not
  influence control flow or data flow and are left out; the eight timing lines
  printed at the end are the single trace entry `Event.timingReport`.
-/

namespace Stitching

/-! ## Machine arithmetic on `size_t` -/

/-- Number of values of the 64-bit unsigned type `size_t`. -/
def SIZE_MOD : Nat := 2 ^ 64

/-- Subtraction on `size_t`: wraps around modulo `2 ^ 64`. -/
def sizeSub (a b : Nat) : Nat := (a + SIZE_MOD - b % SIZE_MOD) % SIZE_MOD

/-! ## Outcomes and traces -/

/-- How a function of the program ends: it returns an `int`, or it performs an
out-of-bounds read (undefined behaviour). -/
inductive Outcome where
  | ret (code : Int)
  | fault
  deriving DecidableEq

/-- Observable steps of a run, in program order. -/
inductive Event (Mat Feat Cam : Type) where
  | cout (s : String)
  | imread (name : String)
  | findFeatures (imgs : List Mat)
  | registerImages (features : List Feat)
  | median (focals : List ℚ)
  | composePano (imgs : List Mat) (cameras : List Cam) (scale : ℚ)
  | imwrite (name : String) (img : Mat)
  | timingReport
  deriving DecidableEq

/-- Stage events: the pipeline stages and the write of the result image. -/
def Event.isStage {Mat Feat Cam : Type} : Event Mat Feat Cam → Bool
  | Event.findFeatures _ => true
  | Event.registerImages _ => true
  | Event.median _ => true
  | Event.composePano _ _ _ => true
  | Event.imwrite _ _ => true
  | _ => false

/-- Image reads (`imread`). -/
def Event.isRead {Mat Feat Cam : Type} : Event Mat Feat Cam → Bool
  | Event.imread _ => true
  | _ => false

/-! ## Command line -/

/-- Text printed by `printUsage`. -/
def usageText : String :=
  "Rotation model images stitcher.\n\n" ++
  "stitching img1 img2 [...imgN]\n\n" ++
  "Flags:\n" ++
  "  --output <result_img>\n" ++
  "      The default is \x27result.jpg\x27.\n"

/-- The globals written by `parseCmdArgs`, the text it printed and the indices
of `argv` it dereferenced (one entry per loop iteration for `argv[i]`, one for
`argv[i + 1]`). -/
structure ParseState where
  img_names : List String
  result_name : String
  out : List String
  reads : List Nat
  deriving DecidableEq

/-- Result of a call of `parseCmdArgs`. -/
structure ParseRun where
  outcome : Outcome
  state : ParseState
  deriving DecidableEq

/-- State of the globals at program start: `img_names` is empty and
`result_name` is `"result.jpg"`. -/
def initState : ParseState :=
  { img_names := [], result_name := "result.jpg", out := [], reads := [] }

/-- The function `printUsage`. -/
def printUsage (st : ParseState) : ParseState :=
  { st with out := st.out ++ [usageText] }

/-- The loop `for (int i = 1; i < argc; ++i)` of `parseCmdArgs`, entered with
loop variable `i`. Reading `argv[i + 1]` when `i + 1 = argc` yields the null
pointer that terminates `argv`; assigning it to a `std::string` is undefined
behaviour. -/
def parseLoop (argv : List String) (i : Nat) (st : ParseState) : ParseRun :=
  if h : i < argv.length then
    let st := { st with reads := st.reads ++ [i] }
    if argv[i] = "--help" ∨ argv[i] = "/?" then
      { outcome := Outcome.ret (-1), state := printUsage st }
    else if argv[i] = "--output" then
      let st := { st with reads := st.reads ++ [i + 1] }
      match argv[i + 1]? with
      | none => { outcome := Outcome.fault, state := st }
      | some v => parseLoop argv (i + 1 + 1) { st with result_name := v }
    else
      parseLoop argv (i + 1) { st with img_names := st.img_names ++ [argv[i]] }
  else
    { outcome := Outcome.ret 0, state := st }
termination_by argv.length - i

/-- The function `parseCmdArgs(argc, argv)`, with `argc = argv.length`, called
on the initial globals. -/
def parseCmdArgs (argv : List String) : ParseRun :=
  if argv.length = 1 then
    { outcome := Outcome.ret (-1), state := printUsage initState }
  else
    parseLoop argv 1 initState

/-! ## Median focal length -/

/-- The call `sort(focals.begin(), focals.end())`: the ascending rearrangement
of the focals. -/
def sortFocals (focals : List ℚ) : List ℚ :=
  focals.insertionSort (fun a b => a ≤ b)

/-- Indices of the sorted focals that the median computation reads, for a
vector of size `n`. -/
def medianIndices (n : Nat) : List Nat :=
  if n % 2 = 1 then [n / 2] else [sizeSub (n / 2) 1, n / 2]

/-- The computation of `warped_image_scale` in `main`: sort the focals and
take the middle element, or half the sum of the two middle elements. The result
is `none` when an index is outside the vector. -/
def medianFocal (focals : List ℚ) : Option ℚ :=
  let sorted := sortFocals focals
  let n := sorted.length
  if n % 2 = 1 then
    sorted[n / 2]?
  else
    match sorted[sizeSub (n / 2) 1]?, sorted[n / 2]? with
    | some a, some b => some ((a + b) * (1 / 2))
    | _, _ => none

/-! ## The driver -/

/-- The collaborators of `main` that live outside `main.cpp`: `imread` and
`Mat::empty` from the image library, the three stages declared in
`stitching.hpp`, and the field `focal` of `detail::CameraParams`. -/
structure Env (Mat Feat Cam : Type) where
  imread : String → Mat
  empty : Mat → Bool
  findFeatures : List Mat → List Feat
  registerImages : List Feat → List Cam
  focal : Cam → ℚ
  composePano : List Mat → List Cam → ℚ → Mat

/-- Result of a run of `main`. -/
structure Run (Mat Feat Cam : Type) where
  outcome : Outcome
  trace : List (Event Mat Feat Cam)

/-- The loop that fills `full_imgs`: the names still to read, the images read
so far and the trace so far. It stops at the first image that is empty after
`imread`, having printed `Can't open image <name>`. Under `USE_GPU` the decoded
image is first copied into page-locked host memory; the image tested and kept
is the same. -/
def readImages {Mat Feat Cam : Type} (env : Env Mat Feat Cam) :
    List String → List Mat → List (Event Mat Feat Cam) →
    Option (List Mat) × List (Event Mat Feat Cam)
  | [], full_imgs, tr => (some full_imgs, tr)
  | name :: rest, full_imgs, tr =>
    let img := env.imread name
    let tr := tr ++ [Event.imread name]
    if env.empty img then
      (none, tr ++ [Event.cout ("Can\x27t open image " ++ name)])
    else
      readImages env rest (full_imgs ++ [img]) tr

/-- The part of `main` after the images are loaded: the stages, the median
focal length and the write of the result. -/
def runPipeline {Mat Feat Cam : Type} (env : Env Mat Feat Cam) (result_name : String)
    (full_imgs : List Mat) (tr : List (Event Mat Feat Cam)) : Run Mat Feat Cam :=
  let tr := tr ++ [Event.cout "Finding features...", Event.findFeatures full_imgs]
  let features := env.findFeatures full_imgs
  let tr := tr ++ [Event.cout "Registering images...", Event.registerImages features]
  let cameras := env.registerImages features
  let focals := cameras.map env.focal
  let tr := tr ++ [Event.median focals]
  match medianFocal focals with
  | none => { outcome := Outcome.fault, trace := tr }
  | some warped_image_scale =>
    let tr := tr ++ [Event.cout "Composing pano...",
      Event.composePano full_imgs cameras warped_image_scale]
    let result := env.composePano full_imgs cameras warped_image_scale
    let tr := tr ++ [Event.imwrite result_name result, Event.cout "Done", Event.timingReport]
    { outcome := Outcome.ret 0, trace := tr }

/-- The function `main(argc, argv)`. -/
def main {Mat Feat Cam : Type} (env : Env Mat Feat Cam) (argv : List String) :
    Run Mat Feat Cam :=
  let p := parseCmdArgs argv
  let tr : List (Event Mat Feat Cam) := p.state.out.map Event.cout
  match p.outcome with
  | Outcome.fault => { outcome := Outcome.fault, trace := tr }
  | Outcome.ret retval =>
    if retval ≠ 0 then
      { outcome := Outcome.ret retval, trace := tr }
    else
      let img_names := p.state.img_names
      let num_images := img_names.length
      if num_images < 2 then
        { outcome := Outcome.ret (-1), trace := tr ++ [Event.cout "Need more images"] }
      else
        match readImages env img_names [] (tr ++ [Event.cout "Reading images..."]) with
        | (none, tr) => { outcome := Outcome.ret (-1), trace := tr }
        | (some full_imgs, tr) => runPipeline env p.state.result_name full_imgs tr

/-! ## Vocabulary of the specification for the command line

These definitions follow the wording of the claims about the scan; they are
compared with `parseCmdArgs` by the theorems below. The list they take is the
argument list proper, `argv` without the program name. -/

/-- Whether an argument is a help flag. -/
def isHelp (a : String) : Bool := a = "--help" || a = "/?"

/-- Whether the left-to-right scan meets a help flag in a position that is not
the value of a preceding `--output`. -/
def meetsHelp : List String → Bool
  | [] => false
  | a :: rest =>
    if isHelp a then true
    else if a = "--output" then
      match rest with
      | [] => false
      | _ :: rest2 => meetsHelp rest2
    else meetsHelp rest

/-- Whether every `--output` met during the left-to-right scan is followed by
another argument. -/
def outputsFollowed : List String → Bool
  | [] => true
  | a :: rest =>
    if a = "--output" then
      match rest with
      | [] => false
      | _ :: rest2 => outputsFollowed rest2
    else outputsFollowed rest

/-- The arguments in their original order, with each scanned `--output` and
the argument following it removed. -/
def namesOf : List String → List String
  | [] => []
  | a :: rest =>
    if a = "--output" then
      match rest with
      | [] => []
      | _ :: rest2 => namesOf rest2
    else a :: namesOf rest

/-- The argument following the last scanned `--output`, or `dflt` when there
is none. -/
def lastOutput (dflt : String) : List String → String
  | [] => dflt
  | a :: rest =>
    if a = "--output" then
      match rest with
      | [] => dflt
      | v :: rest2 => lastOutput v rest2
    else lastOutput dflt rest

/-- List view of `parseLoop`, used in proofs: `rest` holds the arguments from
index `i` on. Theorem `parseLoop_eq_scanArgs` shows the two agree. -/
def scanArgs : Nat → List String → ParseState → ParseRun
  | _, [], st => { outcome := Outcome.ret 0, state := st }
  | i, a :: rest, st =>
    let st := { st with reads := st.reads ++ [i] }
    if a = "--help" ∨ a = "/?" then
      { outcome := Outcome.ret (-1), state := printUsage st }
    else if a = "--output" then
      let st := { st with reads := st.reads ++ [i + 1] }
      match rest with
      | [] => { outcome := Outcome.fault, state := st }
      | v :: rest2 => scanArgs (i + 1 + 1) rest2 { st with result_name := v }
    else
      scanArgs (i + 1) rest { st with img_names := st.img_names ++ [a] }

/-! ## Vocabulary of the specification for the pipeline -/

/-- The loaded images of a run, in the order the images were named. -/
def loadedImages {Mat Feat Cam : Type} (env : Env Mat Feat Cam) (argv : List String) :
    List Mat :=
  (parseCmdArgs argv).state.img_names.map env.imread

/-- The cameras `registerImages` returns on the features `findFeatures`
returns on the loaded images. -/
def registeredCameras {Mat Feat Cam : Type} (env : Env Mat Feat Cam) (argv : List String) :
    List Cam :=
  env.registerImages (env.findFeatures (loadedImages env argv))

/-! ## Sample environments

Images are represented by their file names, features by strings and cameras
by their focal length. -/

/-- Every file decodes except `missing.jpg`; registration returns one camera
per image, all with focal 500. -/
def sampleEnv : Env String String ℚ :=
  { imread := fun name => name
    empty := fun img => img = "missing.jpg"
    findFeatures := fun imgs => imgs
    registerImages := fun features => features.map (fun _ => 500)
    focal := fun cam => cam
    composePano := fun _ _ _ => "pano" }

/-- Like `sampleEnv`, but registration returns a single camera. -/
def oneCameraEnv : Env String String ℚ :=
  { sampleEnv with registerImages := fun _ => [500] }

/-- Like `sampleEnv`, but registration returns no camera. -/
def noCameraEnv : Env String String ℚ :=
  { sampleEnv with registerImages := fun _ => [] }


/-! ## Properties of the median computation -/

theorem sortFocals_sorted (focals : List ℚ) :
    List.Sorted (fun a b => a ≤ b) (sortFocals focals) :=
  List.sorted_insertionSort (fun a b : ℚ => a ≤ b) focals

theorem sortFocals_perm (focals : List ℚ) : List.Perm (sortFocals focals) focals :=
  List.perm_insertionSort (fun a b : ℚ => a ≤ b) focals

theorem sortFocals_length (focals : List ℚ) : (sortFocals focals).length = focals.length :=
  (sortFocals_perm focals).length_eq

/-- Sorting has one possible result: every ascending rearrangement of the
focals is the list `sortFocals` returns. -/
theorem sortFocals_unique (focals s : List ℚ) (hp : List.Perm s focals)
    (hs : List.Sorted (fun a b => a ≤ b) s) : s = sortFocals focals :=
  List.eq_of_perm_of_sorted (hp.trans (sortFocals_perm focals).symm) hs
    (sortFocals_sorted focals)

theorem sizeSub_one (k : Nat) (h1 : 1 ≤ k) (h2 : k < SIZE_MOD) : sizeSub k 1 = k - 1 := by
  unfold sizeSub SIZE_MOD at *
  omega

theorem sizeSub_one_le (k : Nat) (h1 : 1 ≤ k) : sizeSub k 1 ≤ k - 1 := by
  unfold sizeSub SIZE_MOD
  omega

theorem sizeSub_zero_one : sizeSub 0 1 = SIZE_MOD - 1 := by
  unfold sizeSub SIZE_MOD
  omega

/-- Every index read by the median computation on a non-empty vector is
inside the vector. -/
theorem medianIndices_lt (n : Nat) (hn : 1 ≤ n) : ∀ idx ∈ medianIndices n, idx < n := by
  intro idx hidx
  unfold medianIndices at hidx
  split at hidx
  · simp only [List.mem_singleton] at hidx
    omega
  · simp only [List.mem_cons, List.mem_singleton, List.not_mem_nil, or_false] at hidx
    have h2 : 1 ≤ n / 2 := by omega
    have := sizeSub_one_le (n / 2) h2
    omega

theorem medianFocal_odd (focals : List ℚ) (h : focals.length % 2 = 1) :
    medianFocal focals = (sortFocals focals)[focals.length / 2]? := by
  unfold medianFocal
  simp only [sortFocals_length, h, if_true]

theorem medianFocal_even (focals : List ℚ) (h : ¬ focals.length % 2 = 1) (a b : ℚ)
    (ha : (sortFocals focals)[sizeSub (focals.length / 2) 1]? = some a)
    (hb : (sortFocals focals)[focals.length / 2]? = some b) :
    medianFocal focals = some ((a + b) * (1 / 2)) := by
  unfold medianFocal
  simp only [sortFocals_length, h, if_false, ha, hb]

/-- The median computation returns a value exactly when every index of
`medianIndices` is inside the vector. -/
theorem medianFocal_isSome_iff (focals : List ℚ) :
    (medianFocal focals).isSome = true ↔
      ∀ idx ∈ medianIndices focals.length, idx < focals.length := by
  have hlen := sortFocals_length focals
  by_cases hodd : focals.length % 2 = 1
  · rw [medianFocal_odd focals hodd]
    simp only [medianIndices, hodd, if_true, List.mem_singleton, forall_eq]
    rw [← hlen]
    constructor
    · intro h
      by_contra hc
      rw [List.getElem?_eq_none (by omega)] at h
      simp at h
    · intro h
      rw [List.getElem?_eq_getElem h]
      rfl
  · simp only [medianIndices, hodd, if_false, List.mem_cons, List.mem_singleton,
      List.not_mem_nil, or_false, forall_eq_or_imp, forall_eq]
    constructor
    · intro h
      by_contra hc
      unfold medianFocal at h
      simp only [hlen, hodd, if_false] at h
      rw [not_and_or] at hc
      rcases hc with hc | hc
      · rw [List.getElem?_eq_none (by omega)] at h
        simp at h
      · rw [List.getElem?_eq_none (l := sortFocals focals) (n := focals.length / 2)
          (by omega)] at h
        cases hx : (sortFocals focals)[sizeSub (focals.length / 2) 1]? <;> simp [hx] at h
    · rintro ⟨h1, h2⟩
      rw [medianFocal_even focals hodd _ _
        (List.getElem?_eq_getElem (by omega)) (List.getElem?_eq_getElem (by omega))]
      rfl

theorem medianFocal_isSome (focals : List ℚ) (hne : focals ≠ []) :
    ∃ m, medianFocal focals = some m := by
  have hn : 1 ≤ focals.length := by
    cases focals with
    | nil => exact absurd rfl hne
    | cons a l => simp
  have h := (medianFocal_isSome_iff focals).mpr (medianIndices_lt focals.length hn)
  exact Option.isSome_iff_exists.mp h

/-- The value returned by the median computation is one of the focals or the
half sum of two of them. -/
theorem medianFocal_mem (focals : List ℚ) (m : ℚ) (h : medianFocal focals = some m) :
    m ∈ focals ∨ ∃ a ∈ focals, ∃ b ∈ focals, m = (a + b) * (1 / 2) := by
  by_cases hodd : focals.length % 2 = 1
  · rw [medianFocal_odd focals hodd] at h
    exact Or.inl ((sortFocals_perm focals).mem_iff.mp (List.getElem?_mem h))
  · right
    unfold medianFocal at h
    simp only [sortFocals_length, hodd, if_false] at h
    cases ha : (sortFocals focals)[sizeSub (focals.length / 2) 1]? with
    | none => simp [ha] at h
    | some a =>
      cases hb : (sortFocals focals)[focals.length / 2]? with
      | none => simp [ha, hb] at h
      | some b =>
        simp only [ha, hb, Option.some.injEq] at h
        exact ⟨a, (sortFocals_perm focals).mem_iff.mp (List.getElem?_mem ha),
          b, (sortFocals_perm focals).mem_iff.mp (List.getElem?_mem hb), h.symm⟩

theorem exists_smallest (l : List ℚ) (hne : l ≠ []) : ∃ lo ∈ l, ∀ x ∈ l, lo ≤ x := by
  induction l with
  | nil => exact absurd rfl hne
  | cons a t ih =>
    by_cases ht : t = []
    · subst ht
      exact ⟨a, by simp, by simp⟩
    · obtain ⟨lo, hlo, hall⟩ := ih ht
      by_cases hle : a ≤ lo
      · refine ⟨a, by simp, ?_⟩
        intro x hx
        rcases List.mem_cons.mp hx with rfl | hx
        · exact le_refl _
        · exact le_trans hle (hall x hx)
      · refine ⟨lo, List.mem_cons_of_mem _ hlo, ?_⟩
        intro x hx
        rcases List.mem_cons.mp hx with rfl | hx
        · exact le_of_lt (lt_of_not_le hle)
        · exact hall x hx

theorem exists_largest (l : List ℚ) (hne : l ≠ []) : ∃ hi ∈ l, ∀ x ∈ l, x ≤ hi := by
  induction l with
  | nil => exact absurd rfl hne
  | cons a t ih =>
    by_cases ht : t = []
    · subst ht
      exact ⟨a, by simp, by simp⟩
    · obtain ⟨hi, hhi, hall⟩ := ih ht
      by_cases hle : hi ≤ a
      · refine ⟨a, by simp, ?_⟩
        intro x hx
        rcases List.mem_cons.mp hx with rfl | hx
        · exact le_refl _
        · exact le_trans (hall x hx) hle
      · refine ⟨hi, List.mem_cons_of_mem _ hhi, ?_⟩
        intro x hx
        rcases List.mem_cons.mp hx with rfl | hx
        · exact le_of_lt (lt_of_not_le hle)
        · exact hall x hx

/-- C1: for a non-empty vector of focals (its size a `size_t` value) the
computed `warped_image_scale` is the median: with `s` the focals in ascending
order and `n` their count, it is `s[n / 2]` when `n` is odd and the average of
`s[n / 2 - 1]` and `s[n / 2]` when `n` is even. -/
theorem medianFocal_eq_median (focals s : List ℚ) (hne : focals ≠ [])
    (hsize : focals.length < SIZE_MOD) (hp : List.Perm s focals)
    (hs : List.Sorted (fun a b => a ≤ b) s) :
    (focals.length % 2 = 1 →
      ∃ a, s[focals.length / 2]? = some a ∧ medianFocal focals = some a) ∧
    (focals.length % 2 = 0 →
      ∃ a b, s[focals.length / 2 - 1]? = some a ∧ s[focals.length / 2]? = some b ∧
        medianFocal focals = some ((a + b) / 2)) := by
  have hs_eq : s = sortFocals focals := sortFocals_unique focals s hp hs
  have hlen : s.length = focals.length := hp.length_eq
  have hn : 1 ≤ focals.length := by
    cases focals with
    | nil => exact absurd rfl hne
    | cons a l => simp
  constructor
  · intro hodd
    have hlt : focals.length / 2 < s.length := by omega
    refine ⟨s[focals.length / 2], List.getElem?_eq_getElem hlt, ?_⟩
    rw [medianFocal_odd focals hodd, ← hs_eq, List.getElem?_eq_getElem hlt]
  · intro heven
    have h1 : focals.length / 2 - 1 < s.length := by omega
    have h2 : focals.length / 2 < s.length := by omega
    refine ⟨s[focals.length / 2 - 1], s[focals.length / 2],
      List.getElem?_eq_getElem h1, List.getElem?_eq_getElem h2, ?_⟩
    have hsub : sizeSub (focals.length / 2) 1 = focals.length / 2 - 1 :=
      sizeSub_one _ (by omega) (by omega)
    rw [medianFocal_even focals (by omega) s[focals.length / 2 - 1] s[focals.length / 2]
      (by rw [hsub, ← hs_eq]; exact List.getElem?_eq_getElem h1)
      (by rw [← hs_eq]; exact List.getElem?_eq_getElem h2)]
    rw [mul_one_div]

/-- Witness for C1: the two examples of the specification, focals
{500, 520, 540} give 520 and focals {500, 520, 540, 560} give 530. -/
theorem medianFocal_eq_median_witness :
    medianFocal [500, 520, 540] = some 520 ∧ medianFocal [500, 520, 540, 560] = some 530 := by
  constructor
  · obtain ⟨a, ha, hm⟩ := (medianFocal_eq_median [500, 520, 540] [500, 520, 540]
      (by simp) (by simp [SIZE_MOD]) (List.Perm.refl _) (by norm_num [List.Sorted])).1 (by simp)
    simp at ha
    rw [hm, ← ha]
  · obtain ⟨a, b, ha, hb, hm⟩ := (medianFocal_eq_median [500, 520, 540, 560]
      [500, 520, 540, 560] (by simp) (by simp [SIZE_MOD]) (List.Perm.refl _)
      (by norm_num [List.Sorted])).2 (by simp)
    simp at ha hb
    rw [hm, ← ha, ← hb]
    norm_num

/-- C6: for every camera list with at least one camera every index the median
computation reads from the sorted focals is inside the vector, and the
computation returns a value. -/
theorem median_reads_in_bounds {Cam : Type} (focal : Cam → ℚ) (cameras : List Cam)
    (h : 1 ≤ cameras.length) :
    (∀ idx ∈ medianIndices (cameras.map focal).length,
      idx < (sortFocals (cameras.map focal)).length) ∧
    ∃ scale, medianFocal (cameras.map focal) = some scale := by
  have hn : 1 ≤ (cameras.map focal).length := by simpa using h
  refine ⟨?_, ?_⟩
  · rw [sortFocals_length]
    exact medianIndices_lt _ hn
  · exact Option.isSome_iff_exists.mp
      ((medianFocal_isSome_iff _).mpr (medianIndices_lt _ hn))

/-- Witness for C6: two cameras with focals 500 and 520. -/
theorem median_reads_in_bounds_witness :
    (∀ idx ∈ medianIndices ([500, 520].map (fun c : ℚ => c)).length,
      idx < (sortFocals ([500, 520].map (fun c : ℚ => c))).length) ∧
    ∃ scale, medianFocal ([500, 520].map (fun c : ℚ => c)) = some scale :=
  median_reads_in_bounds (fun c : ℚ => c) [500, 520] (by simp)

/-- C9: the computed `warped_image_scale` does not depend on the order of the
focals, and it lies between the smallest and the largest focal. -/
theorem medianFocal_perm_bounds (focals other : List ℚ) (hne : focals ≠ [])
    (hp : List.Perm other focals) :
    medianFocal other = medianFocal focals ∧
    ∃ m lo hi, medianFocal focals = some m ∧ lo ∈ focals ∧ hi ∈ focals ∧
      (∀ x ∈ focals, lo ≤ x ∧ x ≤ hi) ∧ lo ≤ m ∧ m ≤ hi := by
  constructor
  · have hsort : sortFocals other = sortFocals focals :=
      sortFocals_unique focals (sortFocals other) ((sortFocals_perm other).trans hp)
        (sortFocals_sorted other)
    unfold medianFocal
    rw [hsort]
  · obtain ⟨m, hm⟩ := medianFocal_isSome focals hne
    obtain ⟨lo, hlo, hlo_le⟩ := exists_smallest focals hne
    obtain ⟨hi, hhi, hhi_le⟩ := exists_largest focals hne
    refine ⟨m, lo, hi, hm, hlo, hhi, fun x hx => ⟨hlo_le x hx, hhi_le x hx⟩, ?_⟩
    rcases medianFocal_mem focals m hm with hmem | ⟨a, ha, b, hb, rfl⟩
    · exact ⟨hlo_le m hmem, hhi_le m hmem⟩
    · have h1 := hlo_le a ha
      have h2 := hlo_le b hb
      have h3 := hhi_le a ha
      have h4 := hhi_le b hb
      constructor <;> linarith

/-- Witness for C9: the focals {540, 500, 520} and their rearrangement
{500, 520, 540}. -/
theorem medianFocal_perm_bounds_witness :
    medianFocal [500, 520, 540] = medianFocal [540, 500, 520] ∧
    ∃ m lo hi, medianFocal [540, 500, 520] = some m ∧ lo ∈ [(540 : ℚ), 500, 520] ∧
      hi ∈ [(540 : ℚ), 500, 520] ∧
      (∀ x ∈ [(540 : ℚ), 500, 520], lo ≤ x ∧ x ≤ hi) ∧ lo ≤ m ∧ m ≤ hi :=
  medianFocal_perm_bounds [540, 500, 520] [500, 520, 540] (by simp) (by decide)

/-! ## Properties of the command-line scan -/

theorem parseLoop_eq_scanArgs (argv : List String) :
    ∀ (n i : Nat) (st : ParseState), argv.length - i = n →
      parseLoop argv i st = scanArgs i (argv.drop i) st := by
  intro n
  induction n using Nat.strong_induction_on with
  | _ n ih =>
    intro i st hn
    rw [parseLoop]
    by_cases hi : i < argv.length
    · rw [List.drop_eq_getElem_cons hi]
      simp only [hi, dite_true, scanArgs]
      by_cases hhelp : argv[i] = "--help" ∨ argv[i] = "/?"
      · simp only [hhelp, if_true]
      · simp only [hhelp, if_false]
        by_cases hout : argv[i] = "--output"
        · simp only [hout, if_true]
          by_cases hi1 : i + 1 < argv.length
          · rw [List.drop_eq_getElem_cons hi1, List.getElem?_eq_getElem hi1]
            exact ih (argv.length - (i + 1 + 1)) (by omega) _ _ rfl
          · rw [List.drop_eq_nil_of_le (by omega), List.getElem?_eq_none (by omega)]
        · simp only [hout, if_false]
          exact ih (argv.length - (i + 1)) (by omega) _ _ rfl
    · rw [List.drop_eq_nil_of_le (by omega)]
      simp only [hi, dite_false, scanArgs]

theorem parseCmdArgs_eq_scanArgs (argv : List String) (h : argv.length ≠ 1) :
    parseCmdArgs argv = scanArgs 1 argv.tail initState := by
  unfold parseCmdArgs
  rw [if_neg h, parseLoop_eq_scanArgs argv _ 1 initState rfl, List.drop_one]

theorem meetsHelp_help (a : String) (rest : List String) (h : isHelp a = true) :
    meetsHelp (a :: rest) = true := by
  cases rest <;> simp [meetsHelp, h]

theorem meetsHelp_output (v : String) (rest : List String) :
    meetsHelp ("--output" :: v :: rest) = meetsHelp rest := by
  have h : isHelp "--output" = false := by decide
  simp [meetsHelp, h]

theorem meetsHelp_other (a : String) (rest : List String) (hh : isHelp a = false)
    (ho : a ≠ "--output") : meetsHelp (a :: rest) = meetsHelp rest := by
  cases rest <;> simp [meetsHelp, hh, ho]

theorem outputsFollowed_output (v : String) (rest : List String) :
    outputsFollowed ("--output" :: v :: rest) = outputsFollowed rest := by
  simp [outputsFollowed]

theorem outputsFollowed_other (a : String) (rest : List String) (ho : a ≠ "--output") :
    outputsFollowed (a :: rest) = outputsFollowed rest := by
  cases rest <;> simp [outputsFollowed, ho]

theorem namesOf_output (v : String) (rest : List String) :
    namesOf ("--output" :: v :: rest) = namesOf rest := by
  simp [namesOf]

theorem namesOf_other (a : String) (rest : List String) (ho : a ≠ "--output") :
    namesOf (a :: rest) = a :: namesOf rest := by
  cases rest <;> simp [namesOf, ho]

theorem lastOutput_output (dflt v : String) (rest : List String) :
    lastOutput dflt ("--output" :: v :: rest) = lastOutput v rest := by
  simp [lastOutput]

theorem lastOutput_other (dflt a : String) (rest : List String) (ho : a ≠ "--output") :
    lastOutput dflt (a :: rest) = lastOutput dflt rest := by
  cases rest <;> simp [lastOutput, ho]

theorem scanArgs_help (i : Nat) (a : String) (rest : List String) (st : ParseState)
    (hh : a = "--help" ∨ a = "/?") :
    scanArgs i (a :: rest) st =
      { outcome := Outcome.ret (-1),
        state := printUsage { st with reads := st.reads ++ [i] } } := by
  cases rest <;> simp [scanArgs, hh]

theorem scanArgs_output_nil (i : Nat) (st : ParseState) :
    scanArgs i ["--output"] st =
      { outcome := Outcome.fault,
        state := { st with reads := st.reads ++ [i] ++ [i + 1] } } := by
  simp [scanArgs]

theorem scanArgs_output_cons (i : Nat) (v : String) (rest : List String) (st : ParseState) :
    scanArgs i ("--output" :: v :: rest) st =
      scanArgs (i + 1 + 1) rest
        { st with reads := st.reads ++ [i] ++ [i + 1], result_name := v } := by
  simp [scanArgs]

theorem scanArgs_other (i : Nat) (a : String) (rest : List String) (st : ParseState)
    (hh : ¬ (a = "--help" ∨ a = "/?")) (ho : a ≠ "--output") :
    scanArgs i (a :: rest) st =
      scanArgs (i + 1) rest
        { st with reads := st.reads ++ [i], img_names := st.img_names ++ [a] } := by
  cases rest <;> simp [scanArgs, hh, ho]

/-- On an argument list without help flag in which every scanned `--output`
has a value, the scan returns 0, appends `namesOf` to `img_names` and leaves
`lastOutput` in `result_name`. -/
theorem scanArgs_ok : ∀ (n : Nat) (rest : List String) (i : Nat) (st : ParseState),
    rest.length = n → (∀ a ∈ rest, a ≠ "--help" ∧ a ≠ "/?") → outputsFollowed rest = true →
    (scanArgs i rest st).outcome = Outcome.ret 0 ∧
    (scanArgs i rest st).state.img_names = st.img_names ++ namesOf rest ∧
    (scanArgs i rest st).state.result_name = lastOutput st.result_name rest ∧
    (scanArgs i rest st).state.out = st.out := by
  intro n
  induction n using Nat.strong_induction_on with
  | _ n ih =>
    intro rest i st hn hhelp hout
    cases rest with
    | nil => simp [scanArgs, namesOf, lastOutput]
    | cons a rest =>
      have ha := hhelp a (List.mem_cons_self _ _)
      have hnh : ¬ (a = "--help" ∨ a = "/?") := by
        rintro (h | h)
        · exact ha.1 h
        · exact ha.2 h
      by_cases ho : a = "--output"
      · subst ho
        cases rest with
        | nil => simp [outputsFollowed] at hout
        | cons v rest2 =>
          rw [outputsFollowed_output] at hout
          rw [scanArgs_output_cons, namesOf_output, lastOutput_output]
          exact ih rest2.length (by simp at hn; omega) rest2 (i + 1 + 1) _ rfl
            (fun b hb => hhelp b (List.mem_cons_of_mem _ (List.mem_cons_of_mem _ hb))) hout
      · rw [outputsFollowed_other a rest ho] at hout
        rw [scanArgs_other i a rest st hnh ho, namesOf_other a rest ho,
          lastOutput_other _ a rest ho]
        have hrec := ih rest.length (by simp at hn; omega) rest (i + 1)
          { st with reads := st.reads ++ [i], img_names := st.img_names ++ [a] } rfl
          (fun b hb => hhelp b (List.mem_cons_of_mem _ hb)) hout
        simpa using hrec

/-- The scan ends in one of three ways: it returns 0 having printed nothing,
it returns -1 having printed the usage text, or it reads past the last
argument having printed nothing. It returns -1 exactly when it meets a help
flag. -/
theorem scanArgs_cases : ∀ (n : Nat) (rest : List String) (i : Nat) (st : ParseState),
    rest.length = n →
    (((scanArgs i rest st).outcome = Outcome.ret 0 ∧ (scanArgs i rest st).state.out = st.out) ∨
     ((scanArgs i rest st).outcome = Outcome.ret (-1) ∧
        (scanArgs i rest st).state.out = st.out ++ [usageText]) ∨
     ((scanArgs i rest st).outcome = Outcome.fault ∧ (scanArgs i rest st).state.out = st.out)) ∧
    ((scanArgs i rest st).outcome = Outcome.ret (-1) ↔ meetsHelp rest = true) := by
  intro n
  induction n using Nat.strong_induction_on with
  | _ n ih =>
    intro rest i st hn
    cases rest with
    | nil => simp [scanArgs, meetsHelp]
    | cons a rest =>
      by_cases hh : a = "--help" ∨ a = "/?"
      · have hih : isHelp a = true := by simpa [isHelp] using hh
        rw [scanArgs_help i a rest st hh, meetsHelp_help a rest hih]
        simp [printUsage]
      · have hih : isHelp a = false := by simpa [isHelp] using hh
        by_cases ho : a = "--output"
        · subst ho
          cases rest with
          | nil =>
            rw [scanArgs_output_nil]
            simp [meetsHelp, hih]
          | cons v rest2 =>
            rw [scanArgs_output_cons, meetsHelp_output]
            exact ih rest2.length (by simp at hn; omega) rest2 (i + 1 + 1) _ rfl
        · rw [scanArgs_other i a rest st hh ho, meetsHelp_other a rest hih ho]
          exact ih rest.length (by simp at hn; omega) rest (i + 1) _ rfl

/-- What `parseCmdArgs` returns and prints: 0 and nothing, -1 and the usage
text, or a read past the last argument. -/
theorem parseCmdArgs_cases (argv : List String) :
    ((parseCmdArgs argv).outcome = Outcome.ret 0 ∧ (parseCmdArgs argv).state.out = []) ∨
    ((parseCmdArgs argv).outcome = Outcome.ret (-1) ∧
      (parseCmdArgs argv).state.out = [usageText]) ∨
    ((parseCmdArgs argv).outcome = Outcome.fault ∧ (parseCmdArgs argv).state.out = []) := by
  by_cases h : argv.length = 1
  · right; left
    simp [parseCmdArgs, h, printUsage, initState]
  · rw [parseCmdArgs_eq_scanArgs argv h]
    simpa [initState] using (scanArgs_cases _ argv.tail 1 initState rfl).1

/-- The function `parseCmdArgs` returns -1 exactly when the argument list is
empty (`argc == 1`) or the scan meets a help flag outside the value position of
an `--output`. -/
theorem parseCmdArgs_ret_neg_one_iff (argv : List String) :
    (parseCmdArgs argv).outcome = Outcome.ret (-1) ↔
      argv.length = 1 ∨ meetsHelp argv.tail = true := by
  by_cases h : argv.length = 1
  · simp [parseCmdArgs, h]
  · rw [parseCmdArgs_eq_scanArgs argv h]
    simpa [h] using (scanArgs_cases _ argv.tail 1 initState rfl).2

/-- C4 (amended): for every non-empty argument list (`argc ≠ 1`) without help
flag in which every `--output` met during the scan is followed by another
argument, `parseCmdArgs` returns 0, leaves in `img_names` the arguments in
their original order without the scanned `--output` flags and their values, and
leaves in `result_name` the value of the last scanned `--output`, or
`"result.jpg"` when there is none. -/
theorem parseCmdArgs_names_and_output (argv : List String) (hargc : argv.length ≠ 1)
    (hhelp : ∀ a ∈ argv.tail, a ≠ "--help" ∧ a ≠ "/?")
    (hout : outputsFollowed argv.tail = true) :
    (parseCmdArgs argv).outcome = Outcome.ret 0 ∧
    (parseCmdArgs argv).state.img_names = namesOf argv.tail ∧
    (parseCmdArgs argv).state.result_name = lastOutput "result.jpg" argv.tail := by
  rw [parseCmdArgs_eq_scanArgs argv hargc]
  obtain ⟨h1, h2, h3, -⟩ := scanArgs_ok _ argv.tail 1 initState rfl hhelp hout
  exact ⟨h1, by simpa [initState] using h2, by simpa [initState] using h3⟩

/-- Witness for C4 (amended): two images around an `--output pano.jpg`. -/
theorem parseCmdArgs_names_and_output_witness :
    (parseCmdArgs ["stitching", "a.jpg", "--output", "pano.jpg", "b.jpg"]).outcome =
      Outcome.ret 0 ∧
    (parseCmdArgs ["stitching", "a.jpg", "--output", "pano.jpg", "b.jpg"]).state.img_names =
      ["a.jpg", "b.jpg"] ∧
    (parseCmdArgs ["stitching", "a.jpg", "--output", "pano.jpg", "b.jpg"]).state.result_name =
      "pano.jpg" :=
  parseCmdArgs_names_and_output ["stitching", "a.jpg", "--output", "pano.jpg", "b.jpg"]
    (by decide) (by decide) (by decide)

/-- C4, counterexample: the empty argument list (`argc == 1`) contains no help
flag and no `--output`, yet `parseCmdArgs` returns -1, not 0. -/
theorem parseCmdArgs_empty_args_not_zero :
    (∀ a ∈ ["stitching"].tail, a ≠ "--help" ∧ a ≠ "/?") ∧
    outputsFollowed ["stitching"].tail = true ∧
    (parseCmdArgs ["stitching"]).outcome = Outcome.ret (-1) ∧
    (parseCmdArgs ["stitching"]).outcome ≠ Outcome.ret 0 := by
  refine ⟨by simp, by decide, ?_, ?_⟩ <;> simp [parseCmdArgs]

/-- C8, failing input: on `stitching --output` (`argc = 2`) the scan handles
`--output` at index 1 and reads index 2, which is not below `argc`; the value
read is the null pointer that terminates `argv`. -/
theorem parseCmdArgs_reads_past_end :
    (parseCmdArgs ["stitching", "--output"]).state.reads = [1, 2] ∧
    ¬ (2 < ["stitching", "--output"].length) ∧
    (parseCmdArgs ["stitching", "--output"]).outcome = Outcome.fault := by
  refine ⟨?_, by decide, ?_⟩ <;> simp [parseCmdArgs, parseLoop, initState]

/-- C10, failing input: on `stitching a.jpg b.jpg --output` the argument list
is not empty and the scan meets no help flag, yet `parseCmdArgs` does not
return 0: it reads past the last argument. -/
theorem parseCmdArgs_trailing_output_no_return :
    ["stitching", "a.jpg", "b.jpg", "--output"].length ≠ 1 ∧
    meetsHelp ["stitching", "a.jpg", "b.jpg", "--output"].tail = false ∧
    (parseCmdArgs ["stitching", "a.jpg", "b.jpg", "--output"]).outcome = Outcome.fault ∧
    (parseCmdArgs ["stitching", "a.jpg", "b.jpg", "--output"]).outcome ≠ Outcome.ret 0 := by
  refine ⟨by decide, by decide, ?_, ?_⟩ <;> simp [parseCmdArgs, parseLoop, initState]

/-! ## Properties of the driver -/

theorem filter_isStage_cout {Mat Feat Cam : Type} (out : List String) :
    (out.map (Event.cout : String → Event Mat Feat Cam)).filter Event.isStage = [] := by
  induction out with
  | nil => rfl
  | cons a t ih => simp [Event.isStage]

theorem filter_isStage_imread {Mat Feat Cam : Type} (names : List String) :
    (names.map (Event.imread : String → Event Mat Feat Cam)).filter Event.isStage = [] := by
  induction names with
  | nil => rfl
  | cons a t ih => simp [Event.isStage]

/-- When every image decodes, the reading loop loads all of them in order. -/
theorem readImages_ok {Mat Feat Cam : Type} (env : Env Mat Feat Cam) :
    ∀ (names : List String) (full_imgs : List Mat) (tr : List (Event Mat Feat Cam)),
      (∀ name ∈ names, env.empty (env.imread name) = false) →
      readImages env names full_imgs tr =
        (some (full_imgs ++ names.map env.imread), tr ++ names.map Event.imread) := by
  intro names
  induction names with
  | nil => intro full_imgs tr _; simp [readImages]
  | cons a t ih =>
    intro full_imgs tr h
    have ha := h a (List.mem_cons_self _ _)
    simp only [readImages, ha, Bool.false_eq_true, if_false]
    rw [ih _ _ (fun name hn => h name (List.mem_cons_of_mem _ hn))]
    simp

/-- The reading loop stops at the first image that does not decode. -/
theorem readImages_fail {Mat Feat Cam : Type} (env : Env Mat Feat Cam) :
    ∀ (pre : List String) (bad : String) (post : List String) (full_imgs : List Mat)
      (tr : List (Event Mat Feat Cam)),
      (∀ name ∈ pre, env.empty (env.imread name) = false) →
      env.empty (env.imread bad) = true →
      readImages env (pre ++ bad :: post) full_imgs tr =
        (none, tr ++ (pre ++ [bad]).map Event.imread ++
          [Event.cout ("Can\x27t open image " ++ bad)]) := by
  intro pre
  induction pre with
  | nil => intro bad post full_imgs tr _ hbad; simp [readImages, hbad]
  | cons a t ih =>
    intro bad post full_imgs tr h hbad
    have ha := h a (List.mem_cons_self _ _)
    have hrec := ih bad post (full_imgs ++ [env.imread a]) (tr ++ [Event.imread a])
      (fun name hn => h name (List.mem_cons_of_mem _ hn)) hbad
    simp [readImages, ha, hrec]

/-- A list with an image that does not decode splits at the first such
image. -/
theorem exists_first_unreadable {Mat Feat Cam : Type} (env : Env Mat Feat Cam) :
    ∀ names : List String, (∃ name ∈ names, env.empty (env.imread name) = true) →
      ∃ pre bad post, names = pre ++ bad :: post ∧
        (∀ name ∈ pre, env.empty (env.imread name) = false) ∧
        env.empty (env.imread bad) = true := by
  intro names
  induction names with
  | nil => rintro ⟨name, hmem, -⟩; simp at hmem
  | cons a t ih =>
    rintro ⟨name, hmem, hbad⟩
    by_cases ha : env.empty (env.imread a) = true
    · exact ⟨[], a, t, rfl, by simp, ha⟩
    · have hname : name ∈ t := by
        rcases List.mem_cons.mp hmem with rfl | h
        · exact absurd hbad ha
        · exact h
      obtain ⟨pre, bad, post, heq, hpre, hb⟩ := ih ⟨name, hname, hbad⟩
      refine ⟨a :: pre, bad, post, by simp [heq], ?_, hb⟩
      intro n hn
      rcases List.mem_cons.mp hn with rfl | h
      · simpa using ha
      · exact hpre n h

theorem medianFocal_singleton (x : ℚ) : medianFocal [x] = some x := by
  simp [medianFocal, sortFocals]

/-- When `parseCmdArgs` returns a non-zero value, `main` returns that value
having done nothing but print what `parseCmdArgs` printed. -/
theorem main_returns_parse_failure {Mat Feat Cam : Type} (env : Env Mat Feat Cam)
    (argv : List String) (c : Int) (hparse : (parseCmdArgs argv).outcome = Outcome.ret c)
    (hc : c ≠ 0) :
    (main env argv).outcome = Outcome.ret c ∧
    (main env argv).trace = (parseCmdArgs argv).state.out.map Event.cout := by
  simp [main, hparse, hc]

/-- What `main` does once the images are named: with at least two names, all
of which decode, it runs the pipeline on the loaded images. -/
theorem main_eq_runPipeline {Mat Feat Cam : Type} (env : Env Mat Feat Cam)
    (argv : List String) (hparse : (parseCmdArgs argv).outcome = Outcome.ret 0)
    (hnum : 2 ≤ (parseCmdArgs argv).state.img_names.length)
    (hdec : ∀ name ∈ (parseCmdArgs argv).state.img_names,
      env.empty (env.imread name) = false) :
    main env argv =
      runPipeline env (parseCmdArgs argv).state.result_name (loadedImages env argv)
        ([Event.cout "Reading images..."] ++
          (parseCmdArgs argv).state.img_names.map Event.imread) := by
  have hout : (parseCmdArgs argv).state.out = [] := by
    rcases parseCmdArgs_cases argv with h | h | h
    · exact h.2
    · rw [hparse] at h; simp at h
    · rw [hparse] at h; simp at h
  have hlt : ¬ (parseCmdArgs argv).state.img_names.length < 2 := by omega
  simp only [main, hparse, hout, hlt, ne_eq, not_true_eq_false, if_false, List.map_nil,
    List.nil_append, readImages_ok env _ _ _ hdec, loadedImages]

/-- C2 (amended): for every argument list on which `parseCmdArgs` returns and
leaves fewer than 2 image names, `main` returns -1 without reading an image,
running a stage or writing the result; it prints "Need more images" when
`parseCmdArgs` returned 0, and only the usage text when `parseCmdArgs` returned
a non-zero value. -/
theorem main_too_few_images {Mat Feat Cam : Type} (env : Env Mat Feat Cam)
    (argv : List String) (c : Int) (hparse : (parseCmdArgs argv).outcome = Outcome.ret c)
    (hnum : (parseCmdArgs argv).state.img_names.length < 2) :
    (main env argv).outcome = Outcome.ret (-1) ∧
    (main env argv).trace.filter Event.isRead = [] ∧
    (main env argv).trace.filter Event.isStage = [] ∧
    (c = 0 → (main env argv).trace = [Event.cout "Need more images"]) ∧
    (c ≠ 0 → (main env argv).trace = [Event.cout usageText]) := by
  rcases parseCmdArgs_cases argv with ⟨h0, hout⟩ | ⟨h1, hout⟩ | ⟨hf, -⟩
  · have hc : c = 0 := by
      rw [hparse] at h0
      exact Outcome.ret.inj h0
    subst hc
    simp [main, hparse, hout, hnum, Event.isRead, Event.isStage]
  · have hc : c = -1 := by
      rw [hparse] at h1
      exact Outcome.ret.inj h1
    subst hc
    simp [main, hparse, hout, Event.isRead, Event.isStage]
  · rw [hparse] at hf
    exact Outcome.noConfusion hf

/-- Witness for C2 (amended): a single image name. -/
theorem main_too_few_images_witness :
    (main sampleEnv ["stitching", "a.jpg"]).outcome = Outcome.ret (-1) ∧
    (main sampleEnv ["stitching", "a.jpg"]).trace.filter Event.isRead = [] ∧
    (main sampleEnv ["stitching", "a.jpg"]).trace.filter Event.isStage = [] ∧
    ((0 : Int) = 0 →
      (main sampleEnv ["stitching", "a.jpg"]).trace = [Event.cout "Need more images"]) ∧
    ((0 : Int) ≠ 0 → (main sampleEnv ["stitching", "a.jpg"]).trace = [Event.cout usageText]) :=
  main_too_few_images sampleEnv ["stitching", "a.jpg"] 0
    (by simp [parseCmdArgs, parseLoop, initState])
    (by simp [parseCmdArgs, parseLoop, initState])

/-- C2, counterexample: the empty argument list yields no image name, yet
`main` does not print "Need more images"; it prints the usage text and
returns -1. -/
theorem main_empty_args_prints_usage :
    (parseCmdArgs ["stitching"]).state.img_names.length < 2 ∧
    (main sampleEnv ["stitching"]).trace = [Event.cout usageText] ∧
    Event.cout "Need more images" ∉ (main sampleEnv ["stitching"]).trace := by
  have husage : usageText ≠ "Need more images" := by decide
  refine ⟨?_, ?_, ?_⟩ <;>
    simp [main, parseCmdArgs, printUsage, initState, Ne.symm husage]

/-- C3 (amended): for every list of at least 2 image names in which some image
fails to decode, `main` reads the images in order up to the first one that
fails, prints `Can't open image <name>` for it and returns -1; no stage runs
and no result is written. -/
theorem main_stops_at_unreadable_image {Mat Feat Cam : Type} (env : Env Mat Feat Cam)
    (argv : List String) (hparse : (parseCmdArgs argv).outcome = Outcome.ret 0)
    (hnum : 2 ≤ (parseCmdArgs argv).state.img_names.length)
    (hbad : ∃ name ∈ (parseCmdArgs argv).state.img_names,
      env.empty (env.imread name) = true) :
    (main env argv).outcome = Outcome.ret (-1) ∧
    (main env argv).trace.filter Event.isStage = [] ∧
    ∃ pre bad post, (parseCmdArgs argv).state.img_names = pre ++ bad :: post ∧
      (∀ name ∈ pre, env.empty (env.imread name) = false) ∧
      env.empty (env.imread bad) = true ∧
      (main env argv).trace =
        [Event.cout "Reading images..."] ++ (pre ++ [bad]).map Event.imread ++
          [Event.cout ("Can\x27t open image " ++ bad)] := by
  have hout : (parseCmdArgs argv).state.out = [] := by
    rcases parseCmdArgs_cases argv with h | h | h
    · exact h.2
    · rw [hparse] at h; simp at h
    · rw [hparse] at h; simp at h
  obtain ⟨pre, bad, post, heq, hpre, hb⟩ := exists_first_unreadable env _ hbad
  have hlt : ¬ (pre ++ bad :: post).length < 2 := by
    rw [← heq]
    omega
  have hmain : main env argv =
      { outcome := Outcome.ret (-1),
        trace := [Event.cout "Reading images..."] ++ (pre ++ [bad]).map Event.imread ++
          [Event.cout ("Can\x27t open image " ++ bad)] } := by
    simp only [main, hparse, hout, hlt, ne_eq, not_true_eq_false, if_false, List.map_nil,
      List.nil_append, heq, readImages_fail env pre bad post _ _ hpre hb]
  refine ⟨by rw [hmain], ?_, pre, bad, post, heq, hpre, hb, by rw [hmain]⟩
  rw [hmain]
  simp [List.filter_append, filter_isStage_imread, Event.isStage]

/-- Witness for C3 (amended): the second of three images does not decode. -/
theorem main_stops_at_unreadable_image_witness :
    (main sampleEnv ["stitching", "a.jpg", "missing.jpg", "c.jpg"]).outcome =
      Outcome.ret (-1) ∧
    (main sampleEnv ["stitching", "a.jpg", "missing.jpg", "c.jpg"]).trace.filter
      Event.isStage = [] ∧
    ∃ pre bad post,
      (parseCmdArgs ["stitching", "a.jpg", "missing.jpg", "c.jpg"]).state.img_names =
        pre ++ bad :: post ∧
      (∀ name ∈ pre, sampleEnv.empty (sampleEnv.imread name) = false) ∧
      sampleEnv.empty (sampleEnv.imread bad) = true ∧
      (main sampleEnv ["stitching", "a.jpg", "missing.jpg", "c.jpg"]).trace =
        [Event.cout "Reading images..."] ++ (pre ++ [bad]).map Event.imread ++
          [Event.cout ("Can\x27t open image " ++ bad)] :=
  main_stops_at_unreadable_image sampleEnv ["stitching", "a.jpg", "missing.jpg", "c.jpg"]
    (by simp [parseCmdArgs, parseLoop, initState])
    (by simp [parseCmdArgs, parseLoop, initState])
    ⟨"missing.jpg", by simp [parseCmdArgs, parseLoop, initState], by simp [sampleEnv]⟩

/-- C3, counterexample: of the three named images two decode, yet `main` does
not run the pipeline on them: it returns -1 and no stage runs. -/
theorem main_does_not_skip_unreadable_image :
    (parseCmdArgs ["stitching", "a.jpg", "missing.jpg", "c.jpg"]).state.img_names =
      ["a.jpg", "missing.jpg", "c.jpg"] ∧
    2 ≤ (["a.jpg", "missing.jpg", "c.jpg"].filter
      (fun name => !sampleEnv.empty (sampleEnv.imread name))).length ∧
    (main sampleEnv ["stitching", "a.jpg", "missing.jpg", "c.jpg"]).outcome =
      Outcome.ret (-1) ∧
    (main sampleEnv ["stitching", "a.jpg", "missing.jpg", "c.jpg"]).trace.filter
      Event.isStage = [] := by
  refine ⟨?_, ?_, ?_, ?_⟩ <;>
    simp [main, readImages, parseCmdArgs, parseLoop, initState, sampleEnv, Event.isStage]

/-- The stage events of the pipeline when the median computation returns
`scale`. -/
theorem runPipeline_stages {Mat Feat Cam : Type} (env : Env Mat Feat Cam)
    (result_name : String) (full_imgs : List Mat) (names : List String) (scale : ℚ)
    (hm : medianFocal
      ((env.registerImages (env.findFeatures full_imgs)).map env.focal) = some scale) :
    (runPipeline env result_name full_imgs
      ([Event.cout "Reading images..."] ++ names.map Event.imread)).outcome = Outcome.ret 0 ∧
    (runPipeline env result_name full_imgs
      ([Event.cout "Reading images..."] ++ names.map Event.imread)).trace.filter
        Event.isStage =
      [Event.findFeatures full_imgs,
       Event.registerImages (env.findFeatures full_imgs),
       Event.median ((env.registerImages (env.findFeatures full_imgs)).map env.focal),
       Event.composePano full_imgs (env.registerImages (env.findFeatures full_imgs)) scale,
       Event.imwrite result_name
         (env.composePano full_imgs (env.registerImages (env.findFeatures full_imgs))
           scale)] := by
  simp [runPipeline, hm, List.filter_append, filter_isStage_imread, Event.isStage]

/-- C5 (amended): for every run of `main` that reaches the pipeline (at least
2 image names, all decoded) and in which `registerImages` returns at least one
camera, the stages run in the order `findFeatures`, `registerImages`, median,
`composePano`; the image written to `result_name` is `composePano` applied to
the loaded images in the order they were named, to the cameras `registerImages`
returned on the features `findFeatures` returned on those images, unchanged,
and to the median of those cameras' focals; `main` returns 0. -/
theorem main_pipeline_dataflow {Mat Feat Cam : Type} (env : Env Mat Feat Cam)
    (argv : List String) (hparse : (parseCmdArgs argv).outcome = Outcome.ret 0)
    (hnum : 2 ≤ (parseCmdArgs argv).state.img_names.length)
    (hdec : ∀ name ∈ (parseCmdArgs argv).state.img_names,
      env.empty (env.imread name) = false)
    (hcam : registeredCameras env argv ≠ []) :
    ∃ scale, medianFocal ((registeredCameras env argv).map env.focal) = some scale ∧
      (main env argv).outcome = Outcome.ret 0 ∧
      (main env argv).trace.filter Event.isStage =
        [Event.findFeatures (loadedImages env argv),
         Event.registerImages (env.findFeatures (loadedImages env argv)),
         Event.median ((registeredCameras env argv).map env.focal),
         Event.composePano (loadedImages env argv) (registeredCameras env argv) scale,
         Event.imwrite (parseCmdArgs argv).state.result_name
           (env.composePano (loadedImages env argv) (registeredCameras env argv) scale)] := by
  have hne : (registeredCameras env argv).map env.focal ≠ [] := by
    simpa using hcam
  obtain ⟨scale, hm⟩ := medianFocal_isSome _ hne
  refine ⟨scale, hm, ?_⟩
  rw [main_eq_runPipeline env argv hparse hnum hdec]
  exact runPipeline_stages env _ _ _ scale hm

/-- Witness for C5 (amended): two images, written to `pano.jpg`. -/
theorem main_pipeline_dataflow_witness :
    ∃ scale,
      medianFocal ((registeredCameras sampleEnv
        ["stitching", "a.jpg", "b.jpg", "--output", "pano.jpg"]).map sampleEnv.focal) =
          some scale ∧
      (main sampleEnv ["stitching", "a.jpg", "b.jpg", "--output", "pano.jpg"]).outcome =
        Outcome.ret 0 ∧
      (main sampleEnv ["stitching", "a.jpg", "b.jpg", "--output", "pano.jpg"]).trace.filter
        Event.isStage =
        [Event.findFeatures
           (loadedImages sampleEnv ["stitching", "a.jpg", "b.jpg", "--output", "pano.jpg"]),
         Event.registerImages (sampleEnv.findFeatures
           (loadedImages sampleEnv ["stitching", "a.jpg", "b.jpg", "--output", "pano.jpg"])),
         Event.median ((registeredCameras sampleEnv
           ["stitching", "a.jpg", "b.jpg", "--output", "pano.jpg"]).map sampleEnv.focal),
         Event.composePano
           (loadedImages sampleEnv ["stitching", "a.jpg", "b.jpg", "--output", "pano.jpg"])
           (registeredCameras sampleEnv
             ["stitching", "a.jpg", "b.jpg", "--output", "pano.jpg"]) scale,
         Event.imwrite
           (parseCmdArgs ["stitching", "a.jpg", "b.jpg", "--output", "pano.jpg"]).state.result_name
           (sampleEnv.composePano
             (loadedImages sampleEnv ["stitching", "a.jpg", "b.jpg", "--output", "pano.jpg"])
             (registeredCameras sampleEnv
               ["stitching", "a.jpg", "b.jpg", "--output", "pano.jpg"]) scale)] :=
  main_pipeline_dataflow sampleEnv ["stitching", "a.jpg", "b.jpg", "--output", "pano.jpg"]
    (by simp [parseCmdArgs, parseLoop, initState])
    (by simp [parseCmdArgs, parseLoop, initState])
    (by simp [parseCmdArgs, parseLoop, initState, sampleEnv])
    (by simp [registeredCameras, loadedImages, parseCmdArgs, parseLoop, initState, sampleEnv])

/-- C5, counterexample: a run that reaches the pipeline (two image names, both
decoded) in which `registerImages` returns no camera. The median computation
reads outside the empty vector of focals; `composePano` is not called and no
image is written. -/
theorem main_no_camera_writes_nothing :
    (parseCmdArgs ["stitching", "a.jpg", "b.jpg"]).outcome = Outcome.ret 0 ∧
    (parseCmdArgs ["stitching", "a.jpg", "b.jpg"]).state.img_names = ["a.jpg", "b.jpg"] ∧
    (∀ name ∈ ["a.jpg", "b.jpg"], noCameraEnv.empty (noCameraEnv.imread name) = false) ∧
    (main noCameraEnv ["stitching", "a.jpg", "b.jpg"]).outcome = Outcome.fault ∧
    (main noCameraEnv ["stitching", "a.jpg", "b.jpg"]).trace.filter Event.isStage =
      [Event.findFeatures ["a.jpg", "b.jpg"], Event.registerImages ["a.jpg", "b.jpg"],
       Event.median []] := by
  have hmed : medianFocal [] = none := by decide
  refine ⟨?_, ?_, ?_, ?_, ?_⟩ <;>
    simp [main, runPipeline, readImages, parseCmdArgs, parseLoop, initState, noCameraEnv,
      sampleEnv, Event.isStage, hmed]

/-- C7 (amended): for every run that reaches the pipeline in which
`registerImages` returns exactly one camera, `main` does not fail: the median
is that camera's focal, `composePano` is called with it, the result is written
and `main` returns 0. -/
theorem main_single_camera_runs {Mat Feat Cam : Type} (env : Env Mat Feat Cam)
    (argv : List String) (cam : Cam)
    (hparse : (parseCmdArgs argv).outcome = Outcome.ret 0)
    (hnum : 2 ≤ (parseCmdArgs argv).state.img_names.length)
    (hdec : ∀ name ∈ (parseCmdArgs argv).state.img_names,
      env.empty (env.imread name) = false)
    (hcam : registeredCameras env argv = [cam]) :
    (main env argv).outcome = Outcome.ret 0 ∧
    (main env argv).trace.filter Event.isStage =
      [Event.findFeatures (loadedImages env argv),
       Event.registerImages (env.findFeatures (loadedImages env argv)),
       Event.median [env.focal cam],
       Event.composePano (loadedImages env argv) [cam] (env.focal cam),
       Event.imwrite (parseCmdArgs argv).state.result_name
         (env.composePano (loadedImages env argv) [cam] (env.focal cam))] := by
  have hm : medianFocal ((registeredCameras env argv).map env.focal) =
      some (env.focal cam) := by
    rw [hcam]
    exact medianFocal_singleton _
  rw [main_eq_runPipeline env argv hparse hnum hdec]
  have h := runPipeline_stages env (parseCmdArgs argv).state.result_name
    (loadedImages env argv) (parseCmdArgs argv).state.img_names (env.focal cam) hm
  have hcam2 : env.registerImages (env.findFeatures (loadedImages env argv)) = [cam] := hcam
  rw [hcam2] at h
  simpa using h

/-- Witness for C7 (amended): two images, one camera with focal 500. -/
theorem main_single_camera_runs_witness :
    (main oneCameraEnv ["stitching", "a.jpg", "b.jpg"]).outcome = Outcome.ret 0 ∧
    (main oneCameraEnv ["stitching", "a.jpg", "b.jpg"]).trace.filter Event.isStage =
      [Event.findFeatures (loadedImages oneCameraEnv ["stitching", "a.jpg", "b.jpg"]),
       Event.registerImages (oneCameraEnv.findFeatures
         (loadedImages oneCameraEnv ["stitching", "a.jpg", "b.jpg"])),
       Event.median [oneCameraEnv.focal 500],
       Event.composePano (loadedImages oneCameraEnv ["stitching", "a.jpg", "b.jpg"]) [500]
         (oneCameraEnv.focal 500),
       Event.imwrite (parseCmdArgs ["stitching", "a.jpg", "b.jpg"]).state.result_name
         (oneCameraEnv.composePano (loadedImages oneCameraEnv ["stitching", "a.jpg", "b.jpg"])
           [500] (oneCameraEnv.focal 500))] :=
  main_single_camera_runs oneCameraEnv ["stitching", "a.jpg", "b.jpg"] 500
    (by simp [parseCmdArgs, parseLoop, initState])
    (by simp [parseCmdArgs, parseLoop, initState])
    (by simp [parseCmdArgs, parseLoop, initState, oneCameraEnv, sampleEnv])
    (by simp [registeredCameras, oneCameraEnv])

/-- C7, counterexample: `registerImages` returns a camera list of length 1,
yet `main` returns 0, calls `composePano` and writes the result image. -/
theorem main_one_camera_returns_zero :
    (registeredCameras oneCameraEnv ["stitching", "a.jpg", "b.jpg"]).length = 1 ∧
    (main oneCameraEnv ["stitching", "a.jpg", "b.jpg"]).outcome = Outcome.ret 0 ∧
    (main oneCameraEnv ["stitching", "a.jpg", "b.jpg"]).trace.filter Event.isStage =
      [Event.findFeatures ["a.jpg", "b.jpg"], Event.registerImages ["a.jpg", "b.jpg"],
       Event.median [500], Event.composePano ["a.jpg", "b.jpg"] [500] 500,
       Event.imwrite "result.jpg" "pano"] := by
  have hmed : medianFocal [500] = some 500 := medianFocal_singleton 500
  refine ⟨?_, ?_, ?_⟩ <;>
    simp [main, runPipeline, readImages, registeredCameras, parseCmdArgs, parseLoop,
      initState, oneCameraEnv, sampleEnv, Event.isStage, hmed]

end Stitching
